import Mathlib

/-!
Verification of the Whoosh frontstage client scripts
(`src/app/static/js/frontstage/blogpost.js`).

The scripts manipulate a DOM tree: they tag table-of-contents entries with
depth classes, localize UTC timestamps, format view counts, size the cover
and content containers, suppress Enter-key form submission, and perform two
fire-and-forget network calls.  We embed the DOM as a finitely branching
tree of elements and each script function as a pure transformation of that
tree.  Browser APIs whose behaviour is outside the program (locale/timezone
formatting, `parseFloat`, `Number.toLocaleString`, the network) are passed
in as explicit parameters, so the theorems quantify over every behaviour of
those APIs.  JavaScript numbers are modelled as exact rationals.
-/

namespace Whoosh

/-! Model of a DOM element: tag name, `classList`, own text content,
attributes, the measured `offsetWidth` and `offsetHeight` (externally
determined by layout), the inline `style.height` (in px, `none` when unset),
and the list of child elements.  `ElemList` is the (mutually inductive)
list of children. -/
mutual
inductive Elem where
  | mk (tag : String) (classes : List String) (text : String)
       (attrs : List (String × String)) (offsetWidth : ℚ) (offsetHeight : ℚ)
       (styleHeight : Option ℚ) (kids : ElemList)
inductive ElemList where
  | nil
  | cons (e : Elem) (es : ElemList)
end

def Elem.tag : Elem → String | .mk t _ _ _ _ _ _ _ => t

def Elem.classes : Elem → List String | .mk _ c _ _ _ _ _ _ => c

def Elem.text : Elem → String | .mk _ _ x _ _ _ _ _ => x

def Elem.attrs : Elem → List (String × String) | .mk _ _ _ a _ _ _ _ => a

def Elem.offsetWidth : Elem → ℚ | .mk _ _ _ _ w _ _ _ => w

def Elem.offsetHeight : Elem → ℚ | .mk _ _ _ _ _ h _ _ => h

def Elem.styleHeight : Elem → Option ℚ | .mk _ _ _ _ _ _ s _ => s

def Elem.kids : Elem → ElemList | .mk _ _ _ _ _ _ _ k => k

/-- Number of child elements (`element.children.length`). -/
def kidsLength : ElemList → Nat
  | .nil => 0
  | .cons _ es => kidsLength es + 1

/-- Membership test of the `class` attribute (`classList.contains` /
matching a `.cls` selector). -/
def hasClass (e : Elem) (cls : String) : Bool := e.classes.contains cls

/-- Model of `classList.add`: a no-op when the token is already present,
otherwise appends it. -/
def classListAdd (e : Elem) (cls : String) : Elem :=
  match e with
  | .mk t c x a w oh sh ks => if cls ∈ c then .mk t c x a w oh sh ks
      else .mk t (c ++ [cls]) x a w oh sh ks

/-- Model of `classList.remove`: removes every occurrence of the token. -/
def classListRemove (e : Elem) (cls : String) : Elem :=
  match e with
  | .mk t c x a w oh sh ks => .mk t (c.filter (fun s => !(s == cls))) x a w oh sh ks

/-- Model of `setAttribute` on an attribute list: replaces the value when the
name is present, otherwise appends the pair. -/
def setAttrList : List (String × String) → String → String → List (String × String)
  | [], n, v => [(n, v)]
  | (m, u) :: rest, n, v => if m == n then (n, v) :: rest else (m, u) :: setAttrList rest n v

/-- Model of `element.setAttribute(n, v)`. -/
def setAttribute (e : Elem) (n v : String) : Elem :=
  match e with
  | .mk t c x a w oh sh ks => .mk t c x (setAttrList a n v) w oh sh ks

/-- Model of `element.getAttribute(n)` (`none` models `null`). -/
def getAttribute (e : Elem) (n : String) : Option String :=
  (e.attrs.find? (fun kv => kv.1 == n)).map (fun kv => kv.2)

/-! `findFirst p e` is the first element of the subtree rooted at `e`
(including `e` itself) satisfying `p`, in document (pre-)order; it models
`document.querySelector` when applied to the root, and `findFirstL p e.kids`
models `e.querySelector` (descendants only). -/
mutual
def findFirst (p : Elem → Bool) : Elem → Option Elem
  | .mk t c x a w oh sh ks =>
    if p (.mk t c x a w oh sh ks) then some (.mk t c x a w oh sh ks)
    else findFirstL p ks

def findFirstL (p : Elem → Bool) : ElemList → Option Elem
  | .nil => none
  | .cons e es =>
    match findFirst p e with
    | some r => some r
    | none => findFirstL p es
end

/-- Selector used by the TOC code: matches `ul` elements. -/
def isUl (e : Elem) : Bool := e.tag == "ul"

/-! ### `preventFormEnter` (blogpost.js lines 31-35)

A keypress event carries the pressed key and whether its default action has
been prevented. -/

/-- Model of a `keypress` event. -/
structure KeyEvent where
  key : String
  defaultPrevented : Bool
deriving DecidableEq

/-- Model of `event.preventDefault()`. -/
def preventDefault (ev : KeyEvent) : KeyEvent := KeyEvent.mk ev.key true

/-- Embedding of `preventFormEnter`: calls `preventDefault` exactly when the
key is `"Enter"`. -/
def preventFormEnter (ev : KeyEvent) : KeyEvent :=
  if ev.key == "Enter" then preventDefault ev else ev

/-! ### `fetchReplacementImage` (blogpost.js lines 7-21)

The network is modelled by the outcome of `fetch(originalSrc)` followed by
`response.json()`: the fetch promise may reject, the JSON parse may reject
(non-JSON body), or a body is parsed whose `imageUrl` field is either a
string or absent/null.  The function returns the (possibly updated) image
element together with the list of console-error messages emitted. -/

/-- Outcome of the replacement-image network call. -/
inductive FetchOutcome where
  | netFailure
  | jsonFailure
  | jsonSuccess (imageUrl : Option String)
deriving DecidableEq

/-- JavaScript truthiness of `data.imageUrl` in this model: an absent field
is falsy, a string is truthy unless empty. -/
def truthyImageUrl : Option String → Bool
  | none => false
  | some s => !(s == "")

/-- Console message of the `.catch` handler.  The source interpolates the
error object (`Error fetching replacement image: ` followed by the error);
the variable part is elided here. -/
def fetchErrorLog : String := "Error fetching replacement image"

/-- Console message when the parsed body has no truthy `imageUrl`. -/
def imageUrlNotFoundLog : String := "Image URL not found in the response."

/-- Embedding of `fetchReplacementImage`: on any rejection the `.catch`
handler only logs; on a parsed body the `src` attribute is rewritten exactly
when `data.imageUrl` is truthy, otherwise an error is logged. -/
def fetchReplacementImage (outcome : FetchOutcome) (imgElement : Elem) : Elem × List String :=
  match outcome with
  | .netFailure => (imgElement, [fetchErrorLog])
  | .jsonFailure => (imgElement, [fetchErrorLog])
  | .jsonSuccess data =>
    if truthyImageUrl data then (setAttribute imgElement "src" (data.getD ""), [])
    else (imgElement, [imageUrlNotFoundLog])

/-! ### Claim theorems for the event handler and the image fetch -/

/-- C9: for every keypress event, the handler prevents the default action
exactly when the key is `"Enter"`; with any other key the prevented flag is
whatever it already was (in particular a fresh, unprevented event stays
unprevented). -/
theorem preventFormEnter_default_prevented (ev : KeyEvent) :
    (preventFormEnter ev).defaultPrevented = (ev.key == "Enter" || ev.defaultPrevented) := by
  unfold preventFormEnter preventDefault
  by_cases h : ev.key == "Enter"
  · simp [h]
  · simp [h]

/-- C8: when the fetch of the image source fails (network error or non-JSON
body), the image element — in particular its `src` attribute — is left
unchanged and the failure is only logged. -/
theorem fetchReplacementImage_failure_keeps_src (img : Elem) (oc : FetchOutcome)
    (h : oc = FetchOutcome.netFailure ∨ oc = FetchOutcome.jsonFailure) :
    (fetchReplacementImage oc img).1 = img ∧
      getAttribute (fetchReplacementImage oc img).1 "src" = getAttribute img "src" ∧
      (fetchReplacementImage oc img).2 = [fetchErrorLog] := by
  rcases h with h | h <;> subst h <;> exact ⟨rfl, rfl, rfl⟩

/-- Concrete image element used in witnesses. -/
def imgSample : Elem :=
  Elem.mk "img" ["ajax-profile-pic"] "" [("src", "/profile/pic.json")] 0 0 none ElemList.nil

/-- C8 witness: a network failure on a concrete image element. -/
theorem fetchReplacementImage_failure_keeps_src_witness :
    (fetchReplacementImage FetchOutcome.netFailure imgSample).1 = imgSample ∧
      getAttribute (fetchReplacementImage FetchOutcome.netFailure imgSample).1 "src" =
        getAttribute imgSample "src" ∧
      (fetchReplacementImage FetchOutcome.netFailure imgSample).2 = [fetchErrorLog] :=
  fetchReplacementImage_failure_keeps_src imgSample FetchOutcome.netFailure (Or.inl rfl)

/-- C10: on a successfully parsed body, the `src` attribute is rewritten to
`imageUrl` exactly when that field is truthy; a missing or falsy `imageUrl`
leaves the element unchanged and only logs an error. -/
theorem fetchReplacementImage_imageUrl_gate (img : Elem) (d : Option String) :
    (truthyImageUrl d = false →
      (fetchReplacementImage (FetchOutcome.jsonSuccess d) img).1 = img ∧
        (fetchReplacementImage (FetchOutcome.jsonSuccess d) img).2 = [imageUrlNotFoundLog]) ∧
    (∀ s, d = some s → truthyImageUrl d = true →
      (fetchReplacementImage (FetchOutcome.jsonSuccess d) img).1 = setAttribute img "src" s ∧
        (fetchReplacementImage (FetchOutcome.jsonSuccess d) img).2 = []) := by
  constructor
  · intro h
    simp [fetchReplacementImage, h]
  · intro s hs ht
    subst hs
    simp [fetchReplacementImage, ht]

/-- C10 witness: a truthy body rewrites the concrete element's `src`, a body
with no `imageUrl` leaves it unchanged. -/
theorem fetchReplacementImage_imageUrl_gate_witness :
    ((fetchReplacementImage (FetchOutcome.jsonSuccess (some "/static/new.png")) imgSample).1 =
        setAttribute imgSample "src" "/static/new.png" ∧
      (fetchReplacementImage (FetchOutcome.jsonSuccess (some "/static/new.png")) imgSample).2 = []) ∧
    ((fetchReplacementImage (FetchOutcome.jsonSuccess none) imgSample).1 = imgSample ∧
      (fetchReplacementImage (FetchOutcome.jsonSuccess none) imgSample).2 = [imageUrlNotFoundLog]) :=
  ⟨(fetchReplacementImage_imageUrl_gate imgSample (some "/static/new.png")).2
      "/static/new.png" rfl rfl,
    (fetchReplacementImage_imageUrl_gate imgSample none).1 rfl⟩

/-! ### `setCoverHeight` and `setContentMinHeight` (blogpost.js lines 196-229)

`setCoverHeight` reads `cover.offsetWidth` and assigns
`cover.style.height = (9/21) * width` px; it is run once on
`DOMContentLoaded` and again on every `resize` event.  `setContentMinHeight`
sums the `offsetHeight` of navbar, cover, bottom nav and footer — each
defaulting to `0` when the element is absent — and assigns
`content.style.minHeight = calc(102vh - totalpx)`.  Both dereference their
main target (`.cover` resp. `.content`) without a null check, so a missing
target throws a `TypeError`; a thrown invocation is modelled by `none`. -/

/-- Height assignment of `setCoverHeight` on the cover element itself. -/
def setCoverHeightOnCover (cover : Elem) : Elem :=
  match cover with
  | .mk t c x a w oh _ ks => .mk t c x a w oh (some (9 / 21 * w)) ks

/-- Embedding of `setCoverHeight` at document level: `none` models the
`TypeError` thrown when `.cover` is missing. -/
def setCoverHeight (doc : Elem) : Option Elem :=
  (findFirst (fun e => hasClass e "cover") doc).map setCoverHeightOnCover

/-- Layout re-measure: the element with a new `offsetWidth`. -/
def withOffsetWidth (e : Elem) (newWidth : ℚ) : Elem :=
  match e with
  | .mk t c x a _ oh sh ks => .mk t c x a newWidth oh sh ks

/-- One `resize` event: layout gives the cover a new measured width, then
the registered `setCoverHeight` listener runs. -/
def resizeCover (cover : Elem) (newWidth : ℚ) : Elem :=
  setCoverHeightOnCover (withOffsetWidth cover newWidth)

/-- State of the cover element after page load (one `setCoverHeight` call)
followed by any sequence of `resize` events with the given measured
widths. -/
def coverAfterResizes (cover : Elem) (widths : List ℚ) : Elem :=
  widths.foldl resizeCover (setCoverHeightOnCover cover)

/-- `offsetHeight` of an optional element, `0` when absent: models the
`x ? x.offsetHeight : 0` guards of `setContentMinHeight`. -/
def heightOrZero : Option Elem → ℚ
  | some e => e.offsetHeight
  | none => 0

/-- Embedding of `setContentMinHeight`: computes the summed chrome heights
(each missing element contributing `0`) and returns the `min-height` string
assigned to `.content`; `none` models the `TypeError` thrown when
`.content` is missing. -/
def setContentMinHeight (doc : Elem) : Option String :=
  let navbarHeight := heightOrZero (findFirst (fun e => hasClass e "navbar") doc)
  let coverHeight := heightOrZero (findFirst (fun e => hasClass e "cover") doc)
  let bottomNavHeight := heightOrZero (findFirst (fun e => hasClass e "bottom-nav") doc)
  let footerHeight := heightOrZero (findFirst (fun e => hasClass e "footer") doc)
  let totalHeights := navbarHeight + coverHeight + bottomNavHeight + footerHeight
  match findFirst (fun e => hasClass e "content") doc with
  | some _ => some ("calc(102vh - " ++ toString totalHeights ++ "px)")
  | none => none

/-- C7 helper: a single `setCoverHeight` invocation establishes the 21:9
ratio between the assigned height and the measured width. -/
theorem setCoverHeightOnCover_ratio (cover : Elem) :
    (setCoverHeightOnCover cover).styleHeight =
      some (9 / 21 * (setCoverHeightOnCover cover).offsetWidth) := by
  cases cover
  rfl

/-- C7: after page load and after every viewport resize — whatever measured
widths layout produces — the cover's assigned height is exactly 9/21 of its
measured width. -/
theorem cover_aspect_ratio_invariant (cover : Elem) (widths : List ℚ) :
    (coverAfterResizes cover widths).styleHeight =
      some (9 / 21 * (coverAfterResizes cover widths).offsetWidth) := by
  induction widths generalizing cover with
  | nil => exact setCoverHeightOnCover_ratio cover
  | cons w ws ih =>
    have h : coverAfterResizes cover (w :: ws)
        = coverAfterResizes (withOffsetWidth (setCoverHeightOnCover cover) w) ws := rfl
    rw [h]
    exact ih _

/-! ### Absence checks (C3)

The TOC setup dereferences the `.toc` container without a null check
(line 40 of blogpost.js), `setContentMinHeight` dereferences `.content`
without a check (line 210), and `setCoverHeight` dereferences `.cover`
without a check (line 215); only the four chrome elements inside
`setContentMinHeight` are guarded.  `setupTableOfContentsDoc` (defined after
the TOC embedding below) lifts the TOC setup to document level the same
way. -/

/-- Concrete document with no `.content` (and no other chrome): feeding it
to `setContentMinHeight` reaches the unguarded dereference. -/
def bareDoc : Elem := Elem.mk "body" [] "" [] 0 0 none ElemList.nil

/-- C3 counterexample: on a document missing the `.content` container,
`setContentMinHeight` does not complete as a silent no-op — it throws
(modelled by `none`), refuting the claim that every operation checks its
DOM elements for absence before use. -/
theorem setContentMinHeight_missing_content_throws :
    setContentMinHeight bareDoc = none := by rfl

/-! ### `setupTableOfContents` (blogpost.js lines 38-69, 76-77)

The script first runs `tocContainer.classList.add("d-none")` at load (line
77).  On `DOMContentLoaded`, `setupTableOfContents` looks up the first
descendant `ul` of the container; when it exists and has at least one child
element, the container is unhidden, an `h3` heading is inserted as first
child, and `addTocLevelClass` walks the list: every `li` child of the
current `ul` gets the class `toclevel-` + level, and the first descendant
`ul` of that item (`item.querySelector("ul")`) is processed recursively at
level + 1.  `updFirstUl level` is the in-place-mutation analog of
`querySelector("ul")` followed by `addTocLevelClass(nestedUl, level)`: it
rewrites the first `ul` (in document order) of an element list. -/

mutual
def addTocLevelClass (level : Nat) : Elem → Elem
  | .mk t c x a w oh sh ks => .mk t c x a w oh sh (addTocItems level ks)

def addTocItems (level : Nat) : ElemList → ElemList
  | .nil => .nil
  | .cons (.mk t c x a w oh sh ks) rest =>
    .cons
      (if t == "li" then
        match updFirstUl (level + 1) ks with
        | some ks' => classListAdd (.mk t c x a w oh sh ks') ("toclevel-" ++ toString level)
        | none => classListAdd (.mk t c x a w oh sh ks) ("toclevel-" ++ toString level)
       else .mk t c x a w oh sh ks)
      (addTocItems level rest)

def updFirstUl (level : Nat) : ElemList → Option ElemList
  | .nil => none
  | .cons (.mk t c x a w oh sh ks) rest =>
    if t == "ul" then some (.cons (addTocLevelClass level (.mk t c x a w oh sh ks)) rest)
    else
      match updFirstUl level ks with
      | some ks' => some (.cons (.mk t c x a w oh sh ks') rest)
      | none =>
        match updFirstUl level rest with
        | some rest' => some (.cons (.mk t c x a w oh sh ks) rest')
        | none => none
end

/-- The heading created by `document.createElement("h3")` with text
`Table of Contents`. -/
def tocHeading : Elem := Elem.mk "h3" [] "Table of Contents" [] 0 0 none ElemList.nil

/-- Embedding of `setupTableOfContents`, acting on the `.toc` container
element: a missing or childless top-level `ul` is a no-op; otherwise the
container is unhidden (`classList.remove("d-none")`, inlined as the class
filter), the heading is prepended, and the top-level `ul` (the first `ul`
in document order, unaffected by the prepended `h3`) is rewritten by
`addTocLevelClass` at level 1 — `updFirstUl 1` is exactly that
`querySelector`-and-recurse step.  The `children.length > 0` guard is the
match on `kidsLength`. -/
def setupTableOfContents : Elem → Elem
  | .mk t c x a w oh sh ks =>
    match findFirstL isUl ks with
    | none => .mk t c x a w oh sh ks
    | some topLevelUl =>
      match kidsLength topLevelUl.kids with
      | 0 => .mk t c x a w oh sh ks
      | Nat.succ _ =>
        match updFirstUl 1 (ElemList.cons tocHeading ks) with
        | some ks' => .mk t (c.filter (fun s => !(s == "d-none"))) x a w oh sh ks'
        | none =>
          .mk t (c.filter (fun s => !(s == "d-none"))) x a w oh sh (ElemList.cons tocHeading ks)

/-- Whole-page TOC flow for the container: the load-time
`classList.add("d-none")` followed by the `DOMContentLoaded` setup. -/
def tocPageSetup (tocContainer : Elem) : Elem :=
  setupTableOfContents (classListAdd tocContainer "d-none")

/-- Document-level TOC setup: `document.querySelector(".toc")` is
dereferenced without a null check (line 40), so a document without the
container throws, modelled by `none`. -/
def setupTableOfContentsDoc (doc : Elem) : Option Elem :=
  (findFirst (fun e => hasClass e "toc") doc).map setupTableOfContents

/-! ### Observers for the TOC claims

`ulsFrom lvl e` lists every `ul` element of the subtree of `e` paired with
its list-nesting level (a `ul` with `lvl` enclosing `ul` ancestors gets
level `lvl + 1`); the structural nesting depth of a list item is the level
of its parent `ul`.  `itemsOf u` lists the `li` children of `u` — the items
of the list `u`. -/

mutual
def ulsFrom (lvl : Nat) : Elem → List (Nat × Elem)
  | .mk t c x a w oh sh ks =>
    if t == "ul" then (lvl + 1, Elem.mk t c x a w oh sh ks) :: ulsFromList (lvl + 1) ks
    else ulsFromList lvl ks

def ulsFromList (lvl : Nat) : ElemList → List (Nat × Elem)
  | .nil => []
  | .cons e es => ulsFrom lvl e ++ ulsFromList lvl es
end

/-- The `li` children of an element list, in order. -/
def liFilter : ElemList → List Elem
  | .nil => []
  | .cons e es => (if e.tag == "li" then [e] else []) ++ liFilter es

/-- The list items of a list element. -/
def itemsOf (e : Elem) : List Elem := liFilter e.kids

/-- Every item of the list `p.2` (at nesting level `p.1`) carries its depth
class. -/
def ItemsTagged (p : Nat × Elem) : Prop :=
  ∀ li ∈ itemsOf p.2, ("toclevel-" ++ toString p.1) ∈ li.classes

/-! `noUl e`: no `ul` element occurs in the subtree of `e` (including
`e` itself). -/
mutual
def noUl : Elem → Bool
  | .mk t _ _ _ _ _ _ ks => !(t == "ul") && noUlList ks

def noUlList : ElemList → Bool
  | .nil => true
  | .cons e es => noUl e && noUlList es
end

/-! Well-formed TOC markup, the shape the table-of-contents generator
emits: a `ul` whose element children are all `li`, where each `li` contains
at most one nested list — its children are `ul`-free elements except for at
most one well-formed `ul`, with nothing after it containing further `ul`s.
`wfLiKids` describes such a child list; it is also the hypothesis placed on
the container's own children. -/

mutual
def wfTocUl : Elem → Bool
  | .mk t _ _ _ _ _ _ ks => (t == "ul") && wfTocItems ks

def wfTocItems : ElemList → Bool
  | .nil => true
  | .cons (.mk t _ _ _ _ _ _ ks) rest =>
    (t == "li") && wfLiKids ks && wfTocItems rest

def wfLiKids : ElemList → Bool
  | .nil => true
  | .cons (.mk t c x a w oh sh ks) rest =>
    if t == "ul" then wfTocUl (.mk t c x a w oh sh ks) && noUlList rest
    else noUl (.mk t c x a w oh sh ks) && wfLiKids rest
end

/-- Bool observer for C2: the container's top-level `ul` exists and has at
least one child element. -/
def hasNonEmptyTopUl (tocContainer : Elem) : Bool :=
  match findFirstL isUl tocContainer.kids with
  | some u =>
    match kidsLength u.kids with
    | 0 => false
    | Nat.succ _ => true
  | none => false

/-- First child element (`container.firstChild`, restricted to elements). -/
def headKid (e : Elem) : Option Elem :=
  match e.kids with
  | .nil => none
  | .cons k _ => some k

/-- C3 (amended): within `setContentMinHeight` the four chrome elements are
guarded and their absence is tolerated (the result depends only on whether
`.content` exists), but the TOC container, the content container and the
cover are dereferenced without absence checks: each of the three operations
completes exactly when its unguarded element is present and throws
(`none`) when it is missing. -/
theorem dom_absence_guards (doc : Elem) :
    ((setupTableOfContentsDoc doc).isSome
        ↔ (findFirst (fun e => hasClass e "toc") doc).isSome)
    ∧ ((setContentMinHeight doc).isSome
        ↔ (findFirst (fun e => hasClass e "content") doc).isSome)
    ∧ ((setCoverHeight doc).isSome
        ↔ (findFirst (fun e => hasClass e "cover") doc).isSome) := by
  refine ⟨?_, ?_, ?_⟩
  · simp [setupTableOfContentsDoc]
  · unfold setContentMinHeight
    cases h : findFirst (fun e => hasClass e "content") doc <;> simp [h]
  · simp [setCoverHeight]

/-- Core of the C2 argument, for a container already carrying `d-none`
(which the load-time `classList.add` guarantees). -/
theorem toc_visibility_core (t : String) (c : List String) (x : String)
    (a : List (String × String)) (w oh : ℚ) (sh : Option ℚ) (ks : ElemList)
    (hmem : "d-none" ∈ c) :
    (("d-none" ∈ (setupTableOfContents (Elem.mk t c x a w oh sh ks)).classes)
        ↔ hasNonEmptyTopUl (Elem.mk t c x a w oh sh ks) = false)
    ∧ (hasNonEmptyTopUl (Elem.mk t c x a w oh sh ks) = true →
        ("d-none" ∉ (setupTableOfContents (Elem.mk t c x a w oh sh ks)).classes
          ∧ headKid (setupTableOfContents (Elem.mk t c x a w oh sh ks)) = some tocHeading)) := by
  have hupd : updFirstUl 1 (ElemList.cons tocHeading ks)
      = match updFirstUl 1 ks with
        | some r => some (ElemList.cons tocHeading r)
        | none => none := rfl
  cases hf : findFirstL isUl ks with
  | none =>
    constructor
    · simp [setupTableOfContents, hasNonEmptyTopUl, Elem.kids, hf, Elem.classes, hmem]
    · simp [hasNonEmptyTopUl, Elem.kids, hf]
  | some u =>
    cases u with
    | mk tu cu xu au wu ohu shu ksu =>
      cases hn : kidsLength ksu with
      | zero =>
        constructor
        · simp [setupTableOfContents, hasNonEmptyTopUl, Elem.kids, hf, hn, Elem.classes, hmem]
        · simp [hasNonEmptyTopUl, Elem.kids, hf, hn]
      | succ m =>
        cases h2 : updFirstUl 1 ks with
        | none =>
          refine ⟨?_, fun _ => ⟨?_, ?_⟩⟩
          · simp [setupTableOfContents, hasNonEmptyTopUl, Elem.kids, hf, hn, hupd, h2,
              Elem.classes]
          · simp [setupTableOfContents, Elem.kids, hf, hn, hupd, h2, Elem.classes]
          · simp [setupTableOfContents, Elem.kids, hf, hn, hupd, h2, headKid]
        | some r =>
          refine ⟨?_, fun _ => ⟨?_, ?_⟩⟩
          · simp [setupTableOfContents, hasNonEmptyTopUl, Elem.kids, hf, hn, hupd, h2,
              Elem.classes]
          · simp [setupTableOfContents, Elem.kids, hf, hn, hupd, h2, Elem.classes]
          · simp [setupTableOfContents, Elem.kids, hf, hn, hupd, h2, headKid]

/-- C2: after the page-load hide and the `DOMContentLoaded` setup, the
container carries `d-none` exactly when the top-level list is absent or has
no children; when it has at least one child, the container is unhidden and
the `Table of Contents` heading is its first child. -/
theorem toc_container_visibility (tocContainer : Elem) :
    (("d-none" ∈ (tocPageSetup tocContainer).classes) ↔ hasNonEmptyTopUl tocContainer = false)
    ∧ (hasNonEmptyTopUl tocContainer = true →
        ("d-none" ∉ (tocPageSetup tocContainer).classes
          ∧ headKid (tocPageSetup tocContainer) = some tocHeading)) := by
  cases tocContainer
  case mk t c x a w oh sh ks =>
    have hadd : classListAdd (Elem.mk t c x a w oh sh ks) "d-none"
        = if "d-none" ∈ c then Elem.mk t c x a w oh sh ks
          else Elem.mk t (c ++ ["d-none"]) x a w oh sh ks := rfl
    by_cases hmem : "d-none" ∈ c
    · rw [show tocPageSetup (Elem.mk t c x a w oh sh ks)
          = setupTableOfContents (Elem.mk t c x a w oh sh ks) by
            unfold tocPageSetup; rw [hadd, if_pos hmem]]
      exact toc_visibility_core t c x a w oh sh ks hmem
    · rw [show tocPageSetup (Elem.mk t c x a w oh sh ks)
          = setupTableOfContents (Elem.mk t (c ++ ["d-none"]) x a w oh sh ks) by
            unfold tocPageSetup; rw [hadd, if_neg hmem]]
      have : "d-none" ∈ c ++ ["d-none"] := by simp
      exact toc_visibility_core t (c ++ ["d-none"]) x a w oh sh ks this

/-- Concrete TOC container used in the C2 witness: one list with one item. -/
def sampleLi : Elem := Elem.mk "li" [] "Intro" [] 0 0 none ElemList.nil

/-- Top-level list of the sample container. -/
def sampleUl : Elem := Elem.mk "ul" [] "" [] 0 0 none (ElemList.cons sampleLi ElemList.nil)

/-- Sample `.toc` container. -/
def sampleToc : Elem :=
  Elem.mk "div" ["toc"] "" [] 0 0 none (ElemList.cons sampleUl ElemList.nil)

/-- C2 witness: on the concrete container with a one-item list, the setup
unhides the container and prepends the heading. -/
theorem toc_container_visibility_witness :
    "d-none" ∉ (tocPageSetup sampleToc).classes
      ∧ headKid (tocPageSetup sampleToc) = some tocHeading :=
  (toc_container_visibility sampleToc).2 rfl

/-! ### C1 counterexample

`item.querySelector("ul")` only reaches the first nested list of an item:
when a list item contains two sibling nested `ul`s, the items of the second
one receive no depth class at all. -/

/-- Item of the first nested list of the counterexample. -/
def cexInnerLi1 : Elem := Elem.mk "li" [] "b1" [] 0 0 none ElemList.nil

/-- Item of the second nested list of the counterexample. -/
def cexInnerLi2 : Elem := Elem.mk "li" [] "b2" [] 0 0 none ElemList.nil

/-- First nested list. -/
def cexUlA : Elem := Elem.mk "ul" [] "" [] 0 0 none (ElemList.cons cexInnerLi1 ElemList.nil)

/-- Second nested list, sibling of the first inside the same item. -/
def cexUlB : Elem := Elem.mk "ul" [] "" [] 0 0 none (ElemList.cons cexInnerLi2 ElemList.nil)

/-- Top-level item containing the two sibling nested lists. -/
def cexTopLi : Elem :=
  Elem.mk "li" [] "a" [] 0 0 none (ElemList.cons cexUlA (ElemList.cons cexUlB ElemList.nil))

/-- Top-level list of the counterexample container. -/
def cexTopUl : Elem := Elem.mk "ul" [] "" [] 0 0 none (ElemList.cons cexTopLi ElemList.nil)

/-- Counterexample `.toc` container. -/
def cexToc : Elem :=
  Elem.mk "div" ["toc"] "" [] 0 0 none (ElemList.cons cexTopUl ElemList.nil)

/-- C1 counterexample: in the set-up counterexample container, the second
nested list sits at structural depth 2 but its item `b2` receives no
`toclevel-2` class — the traversal only recurses into the first nested list
of each item.  The claim as stated is therefore false. -/
theorem toc_depth_class_claim_fails :
    ¬ (∀ p ∈ ulsFrom 0 (setupTableOfContents cexToc), ∀ li ∈ itemsOf p.2,
        ("toclevel-" ++ toString p.1) ∈ li.classes) := by
  decide

/-! ### C1, amended: correctness of the depth-class traversal on
well-formed TOC markup -/

/-- Simultaneous induction principle for the mutual element tree. -/
theorem elemMutualInd (P : Elem → Prop) (Q : ElemList → Prop)
    (h1 : ∀ t c x a w oh sh ks, Q ks → P (Elem.mk t c x a w oh sh ks))
    (h2 : Q ElemList.nil)
    (h3 : ∀ e es, P e → Q es → Q (ElemList.cons e es)) :
    (∀ e, P e) ∧ (∀ l, Q l) :=
  ⟨fun e => @Elem.rec P Q h1 h2 h3 e, fun l => @ElemList.rec P Q h1 h2 h3 l⟩

/-- `classList.add` always results in membership of the added token. -/
theorem classListAdd_mem_self (e : Elem) (cls : String) :
    cls ∈ (classListAdd e cls).classes := by
  cases e with
  | mk t c x a w oh sh ks =>
    by_cases h : cls ∈ c
    · simp [classListAdd, h, Elem.classes]
    · simp [classListAdd, h, Elem.classes]

/-- `classList.add` preserves the tag. -/
theorem classListAdd_tag (e : Elem) (cls : String) :
    (classListAdd e cls).tag = e.tag := by
  cases e with
  | mk t c x a w oh sh ks => by_cases h : cls ∈ c <;> simp [classListAdd, h, Elem.tag]

/-- The `ul` listing of a tagged `li` item is the listing of its children. -/
theorem ulsFrom_li_classListAdd (lvl : Nat) (c : List String) (x : String)
    (a : List (String × String)) (w oh : ℚ) (sh : Option ℚ) (ks : ElemList) (cls : String) :
    ulsFrom lvl (classListAdd (Elem.mk "li" c x a w oh sh ks) cls) = ulsFromList lvl ks := by
  by_cases h : cls ∈ c
  · simp [classListAdd, h]
    rfl
  · simp [classListAdd, h]
    rfl

/-- Induction payload on element lists: how the traversal interacts with
(1) `ul`-free lists, (2) well-formed item lists, (3) well-formed item
children.  `k` is the `addTocItems` level; a `ul` at list-nesting level `k`
has its items tagged with level `k`. -/
def QProp (l : ElemList) : Prop :=
  (noUlList l = true →
    ∀ lvl, ulsFromList lvl l = [] ∧ updFirstUl lvl l = none ∧ findFirstL isUl l = none)
  ∧ (wfTocItems l = true → ∀ k,
      (∀ li ∈ liFilter (addTocItems k l), ("toclevel-" ++ toString k) ∈ li.classes)
      ∧ (∀ p ∈ ulsFromList k (addTocItems k l), ItemsTagged p))
  ∧ (wfLiKids l = true →
      (findFirstL isUl l = none → noUlList l = true)
      ∧ (∀ u, findFirstL isUl l = some u → wfTocUl u = true
          ∧ (∀ lvl, ulsFromList lvl l = ulsFrom lvl u)
          ∧ (∀ k, ∃ l', updFirstUl (k + 1) l = some l'
              ∧ ∀ p ∈ ulsFromList k l', ItemsTagged p)))

/-- Induction payload on elements. -/
def PProp (e : Elem) : Prop :=
  (noUl e = true → ∀ lvl, ulsFrom lvl e = [])
  ∧ (wfTocUl e = true → ∀ k, ∀ p ∈ ulsFrom k (addTocLevelClass (k + 1) e), ItemsTagged p)
  ∧ QProp e.kids

/-- Main invariant of the depth-class traversal, proved by simultaneous
induction on the element tree. -/
theorem toc_main : (∀ e, PProp e) ∧ (∀ l, QProp l) := by
  refine elemMutualInd PProp QProp ?_ ?_ ?_
  · intro t c x a w oh sh ks ih
    obtain ⟨ikN, ikI, ikK⟩ := ih
    refine ⟨?_, ?_, ⟨ikN, ikI, ikK⟩⟩
    · intro h lvl
      have h' : (t == "ul") = false ∧ noUlList ks = true := by
        simpa [noUl, Bool.and_eq_true, Bool.not_eq_true'] using h
      simp [ulsFrom, h'.1]
      exact (ikN h'.2 lvl).1
    · intro h k p hp
      have h' : (t == "ul") = true ∧ wfTocItems ks = true := by
        simpa [wfTocUl, Bool.and_eq_true] using h
      simp only [addTocLevelClass, ulsFrom, h'.1, if_true, List.mem_cons] at hp
      rcases hp with hp | hp
      · subst hp
        intro li hli
        simp only [itemsOf, Elem.kids] at hli
        exact (ikI h'.2 (k + 1)).1 li hli
      · exact (ikI h'.2 (k + 1)).2 p hp
  · refine ⟨?_, ?_, ?_⟩
    · intro _ lvl
      exact ⟨rfl, rfl, rfl⟩
    · intro _ k
      constructor
      · intro li hli
        simp [addTocItems, liFilter] at hli
      · intro p hp
        simp [addTocItems, ulsFromList] at hp
    · intro _
      constructor
      · intro _
        rfl
      · intro u hu
        simp [findFirstL] at hu
  · intro e es ihe ihes
    cases e with
    | mk t c x a w oh sh ks =>
      obtain ⟨ihe1, ihe2, iheQ⟩ := ihe
      have ikQ : QProp ks := iheQ
      obtain ⟨ikN, ikI, ikK⟩ := ikQ
      obtain ⟨iesN, iesI, iesK⟩ := ihes
      refine ⟨?_, ?_, ?_⟩
      · -- ul-free cons list
        intro h lvl
        have hsplit : noUl (Elem.mk t c x a w oh sh ks) = true ∧ noUlList es = true := by
          simpa [noUlList, Bool.and_eq_true] using h
        have h1 : (t == "ul") = false ∧ noUlList ks = true := by
          simpa [noUl, Bool.and_eq_true, Bool.not_eq_true'] using hsplit.1
        refine ⟨?_, ?_, ?_⟩
        · simp [ulsFromList, ihe1 hsplit.1 lvl, (iesN hsplit.2 lvl).1]
        · simp [updFirstUl, h1.1, (ikN h1.2 lvl).2.1, (iesN hsplit.2 lvl).2.1]
        · simp [findFirstL, findFirst, isUl, Elem.tag, h1.1, (ikN h1.2 lvl).2.2,
            (iesN hsplit.2 lvl).2.2]
      · -- well-formed item list
        intro h k
        have hsplit : ((t == "li") = true ∧ wfLiKids ks = true) ∧ wfTocItems es = true := by
          simpa [wfTocItems, Bool.and_eq_true] using h
        have ht' : t = "li" := by simpa using hsplit.1.1
        subst ht'
        obtain ⟨iknone, iksome⟩ := ikK hsplit.1.2
        cases hff : findFirstL isUl ks with
        | none =>
          have hnoks := iknone hff
          have hupd0 : updFirstUl (k + 1) ks = none := (ikN hnoks (k + 1)).2.1
          have huls0 : ulsFromList k ks = [] := (ikN hnoks k).1
          have haddEq : addTocItems k (ElemList.cons (Elem.mk "li" c x a w oh sh ks) es)
              = ElemList.cons
                  (classListAdd (Elem.mk "li" c x a w oh sh ks) ("toclevel-" ++ toString k))
                  (addTocItems k es) := by
            simp [addTocItems, hupd0]
          rw [haddEq]
          constructor
          · intro li hli
            simp [liFilter, classListAdd_tag, Elem.tag] at hli
            rcases hli with ⟨-, hli⟩ | hli
            · subst hli
              exact classListAdd_mem_self _ _
            · exact (iesI hsplit.2 k).1 li hli
          · intro p hp
            simp [ulsFromList, ulsFrom_li_classListAdd, huls0] at hp
            exact (iesI hsplit.2 k).2 p hp
        | some u =>
          obtain ⟨hwfu, heq, hex⟩ := iksome u hff
          obtain ⟨l', hupd', hok⟩ := hex k
          have haddEq : addTocItems k (ElemList.cons (Elem.mk "li" c x a w oh sh ks) es)
              = ElemList.cons
                  (classListAdd (Elem.mk "li" c x a w oh sh l') ("toclevel-" ++ toString k))
                  (addTocItems k es) := by
            simp [addTocItems, hupd']
          rw [haddEq]
          constructor
          · intro li hli
            simp [liFilter, classListAdd_tag, Elem.tag] at hli
            rcases hli with ⟨-, hli⟩ | hli
            · subst hli
              exact classListAdd_mem_self _ _
            · exact (iesI hsplit.2 k).1 li hli
          · intro p hp
            simp [ulsFromList, ulsFrom_li_classListAdd, List.mem_append] at hp
            rcases hp with hp | hp
            · exact hok p hp
            · exact (iesI hsplit.2 k).2 p hp
      · -- well-formed item children
        intro h
        cases hb : (t == "ul") with
        | true =>
          have hsplit : wfTocUl (Elem.mk t c x a w oh sh ks) = true ∧ noUlList es = true := by
            simpa [wfLiKids, hb, Bool.and_eq_true] using h
          constructor
          · intro habs
            simp [findFirstL, findFirst, isUl, Elem.tag, hb] at habs
          · intro u hu
            simp only [findFirstL, findFirst, isUl, Elem.tag, hb, if_true,
              Option.some.injEq] at hu
            refine ⟨hu ▸ hsplit.1, ?_, ?_⟩
            · intro lvl
              rw [← hu]
              simp [ulsFromList, (iesN hsplit.2 lvl).1]
            · intro k
              refine ⟨ElemList.cons (addTocLevelClass (k + 1) (Elem.mk t c x a w oh sh ks)) es,
                by simp [updFirstUl, hb], ?_⟩
              intro p hp
              simp only [ulsFromList, (iesN hsplit.2 k).1, List.append_nil] at hp
              exact ihe2 hsplit.1 k p hp
        | false =>
          have hsplit : noUl (Elem.mk t c x a w oh sh ks) = true ∧ wfLiKids es = true := by
            simpa [wfLiKids, hb, Bool.and_eq_true] using h
          have h1 : (t == "ul") = false ∧ noUlList ks = true := by
            simpa [noUl, Bool.and_eq_true, Bool.not_eq_true'] using hsplit.1
          have hffks : findFirstL isUl ks = none := (ikN h1.2 0).2.2
          obtain ⟨iesnone, iessome⟩ := iesK hsplit.2
          constructor
          · intro habs
            simp only [findFirstL, findFirst, isUl, Elem.tag, hb, if_false, hffks] at habs
            have := iesnone habs
            simp [noUlList, Bool.and_eq_true, hsplit.1, this]
          · intro u hu
            simp only [findFirstL, findFirst, isUl, Elem.tag, hb, if_false, hffks] at hu
            obtain ⟨hwfu, heq, hex⟩ := iessome u hu
            refine ⟨hwfu, ?_, ?_⟩
            · intro lvl
              simp [ulsFromList, ihe1 hsplit.1 lvl, heq lvl]
            · intro k
              obtain ⟨l', hupd', hok⟩ := hex k
              refine ⟨ElemList.cons (Elem.mk t c x a w oh sh ks) l',
                by simp [updFirstUl, hb, (ikN h1.2 (k + 1)).2.1, hupd'], ?_⟩
              intro p hp
              simp only [ulsFromList, ihe1 hsplit.1 k, List.nil_append] at hp
              exact hok p hp

/-- C1 (amended): on well-formed TOC markup — a non-`ul` container whose
children hold at most one (well-formed) list, where every list's children
are list items and every item contains at most one nested list — the setup
gives every list item at structural nesting depth `d` the class
`toclevel-d`. -/
theorem toc_depth_classes_of_wellFormed (tocContainer : Elem)
    (hTag : (tocContainer.tag == "ul") = false)
    (hWf : wfLiKids tocContainer.kids = true) :
    ∀ p ∈ ulsFrom 0 (setupTableOfContents tocContainer), ∀ li ∈ itemsOf p.2,
      ("toclevel-" ++ toString p.1) ∈ li.classes := by
  obtain ⟨hP, hQ⟩ := toc_main
  cases tocContainer with
  | mk t c x a w oh sh ks =>
    have hTag' : (t == "ul") = false := hTag
    have hWf' : wfLiKids ks = true := hWf
    obtain ⟨wnone, wsome⟩ := (hQ ks).2.2 hWf'
    cases hff : findFirstL isUl ks with
    | none =>
      have hno := wnone hff
      intro p hp
      rw [show setupTableOfContents (Elem.mk t c x a w oh sh ks)
          = Elem.mk t c x a w oh sh ks by simp [setupTableOfContents, hff]] at hp
      simp [ulsFrom, hTag', ((hQ ks).1 hno 0).1] at hp
    | some u =>
      obtain ⟨hwfu, heq, hex⟩ := wsome u hff
      cases u with
      | mk tu cu xu au wu ohu shu ksu =>
        have htu : (tu == "ul") = true := by
          have h' := hwfu
          simp [wfTocUl, Bool.and_eq_true] at h'
          simp [h'.1]
        cases hn : kidsLength ksu with
        | zero =>
          have hknil : ksu = ElemList.nil := by
            cases ksu with
            | nil => rfl
            | cons _ _ => simp [kidsLength] at hn
          subst hknil
          intro p hp
          rw [show setupTableOfContents (Elem.mk t c x a w oh sh ks)
              = Elem.mk t c x a w oh sh ks by
                simp [setupTableOfContents, hff, Elem.kids, hn]] at hp
          rw [show ulsFrom 0 (Elem.mk t c x a w oh sh ks) = ulsFromList 0 ks by
                simp [ulsFrom, hTag']] at hp
          rw [heq 0] at hp
          rw [show ulsFrom 0 (Elem.mk tu cu xu au wu ohu shu ElemList.nil)
              = [(1, Elem.mk tu cu xu au wu ohu shu ElemList.nil)] by
                simp [ulsFrom, htu, ulsFromList]] at hp
          simp only [List.mem_singleton] at hp
          subst hp
          intro li hli
          simp [itemsOf, Elem.kids, liFilter] at hli
        | succ m =>
          obtain ⟨l', hupd', hok⟩ := hex 0
          have hupdc : updFirstUl 1 (ElemList.cons tocHeading ks)
              = some (ElemList.cons tocHeading l') := by
            have hstep : updFirstUl 1 (ElemList.cons tocHeading ks)
                = match updFirstUl 1 ks with
                  | some r => some (ElemList.cons tocHeading r)
                  | none => none := rfl
            rw [hstep, hupd']
          intro p hp
          rw [show setupTableOfContents (Elem.mk t c x a w oh sh ks)
              = Elem.mk t (c.filter (fun s => !(s == "d-none"))) x a w oh sh
                  (ElemList.cons tocHeading l') by
                simp [setupTableOfContents, hff, Elem.kids, hn, hupdc]] at hp
          rw [show ulsFrom 0 (Elem.mk t (c.filter (fun s => !(s == "d-none"))) x a w oh sh
                (ElemList.cons tocHeading l'))
              = ulsFromList 0 (ElemList.cons tocHeading l') by simp [ulsFrom, hTag']] at hp
          rw [show ulsFromList 0 (ElemList.cons tocHeading l')
              = ulsFromList 0 l' by simp [ulsFromList, tocHeading, ulsFrom]] at hp
          exact hok p hp

/-- Concrete well-formed nested TOC (two levels) for the C1 witness. -/
def wfInnerLi : Elem := Elem.mk "li" [] "sub" [] 0 0 none ElemList.nil

/-- Nested list of the witness container. -/
def wfInnerUl : Elem := Elem.mk "ul" [] "" [] 0 0 none (ElemList.cons wfInnerLi ElemList.nil)

/-- Top-level item of the witness container, holding one nested list. -/
def wfTopLi : Elem := Elem.mk "li" [] "top" [] 0 0 none (ElemList.cons wfInnerUl ElemList.nil)

/-- Top-level list of the witness container. -/
def wfTopUl : Elem := Elem.mk "ul" [] "" [] 0 0 none (ElemList.cons wfTopLi ElemList.nil)

/-- Witness `.toc` container: one two-level well-formed list. -/
def wfToc : Elem := Elem.mk "div" ["toc"] "" [] 0 0 none (ElemList.cons wfTopUl ElemList.nil)

/-- The inner item as it appears after the setup of `wfToc`. -/
def wfInnerLiTagged : Elem := Elem.mk "li" ["toclevel-2"] "sub" [] 0 0 none ElemList.nil

/-- The inner list as it appears after the setup of `wfToc`: it sits at
structural nesting level 2. -/
def wfInnerUlTagged : Elem :=
  Elem.mk "ul" [] "" [] 0 0 none (ElemList.cons wfInnerLiTagged ElemList.nil)

/-- C1 witness: the amended theorem applied to the concrete two-level
container, instantiated at the depth-2 list and its item, which indeed
carries `toclevel-2`. -/
theorem toc_depth_classes_of_wellFormed_witness :
    ("toclevel-" ++ toString 2) ∈ wfInnerLiTagged.classes :=
  toc_depth_classes_of_wellFormed wfToc rfl rfl (2, wfInnerUlTagged)
    (List.mem_cons_of_mem _ (List.mem_cons_self _ _)) wfInnerLiTagged
    (List.mem_cons_self _ _)

/-! ### `convertUTCToLocal` and `formatCounts` (blogpost.js lines 121-193)

`convertUTCToLocal` resolves the viewer's IANA timezone, then for each of
the three classes — in the insertion order `utc-to-local-long`,
`utc-to-local-medium`, `utc-to-local-short` — rewrites every element of
that class: the trimmed `textContent` is parsed with `new Date` and
re-rendered with `en-CA` locale formatting.  The `long` branch joins a
numeric date (`toLocaleDateString`) and a 24-hour time
(`toLocaleTimeString`, `hour12: false`) with a space; the other two use
`toLocaleString` with the per-class option set.  The browser's parsing and
Intl formatting are modelled by an abstract `JsRuntime`: its fields take
the raw date string (parsing is folded into formatting, as `new Date` is
pure) and the option set.

Assigning `textContent`/`innerHTML` replaces the element's children with a
single text node, so a matched element's subtree is dropped; elements of a
`querySelectorAll` snapshot that were detached this way are still processed
by the loop but no longer affect the document, which the single pre-order
pass per class reproduces.  `formatCounts` reads `innerHTML`, so the model
serializes child markup when reading. -/

mutual
def textContentOf : Elem → String
  | .mk _ _ x _ _ _ _ ks => x ++ textContentL ks

def textContentL : ElemList → String
  | .nil => ""
  | .cons e es => textContentOf e ++ textContentL es
end

mutual
def serializeElem : Elem → String
  | .mk t _ x _ _ _ _ ks => "<" ++ t ++ ">" ++ x ++ serializeL ks ++ "</" ++ t ++ ">"

def serializeL : ElemList → String
  | .nil => ""
  | .cons e es => serializeElem e ++ serializeL es
end

/-- Model of reading `element.innerHTML`. -/
def innerHTMLOf : Elem → String
  | .mk _ _ x _ _ _ _ ks => x ++ serializeL ks

/-- Option set passed to an Intl formatting call (absent fields `none`). -/
structure DateTimeFormatOptions where
  timeZone : String
  year : Option String
  month : Option String
  day : Option String
  hour : Option String
  minute : Option String
  second : Option String
  hour12 : Option Bool
deriving DecidableEq

/-- `formatSettings["utc-to-local-long"]` (lines 124-133).  The `long`
branch of the loop does not use this combined set: it re-builds the split
date/time option sets below. -/
def longFormatSettings (tz : String) : DateTimeFormatOptions :=
  DateTimeFormatOptions.mk tz (some "numeric") (some "2-digit") (some "2-digit")
    (some "2-digit") (some "2-digit") (some "2-digit") (some false)

/-- `formatSettings["utc-to-local-medium"]` (lines 134-139): numeric date
only, 2-digit month and day. -/
def mediumFormatSettings (tz : String) : DateTimeFormatOptions :=
  DateTimeFormatOptions.mk tz (some "numeric") (some "2-digit") (some "2-digit")
    none none none none

/-- `formatSettings["utc-to-local-short"]` (lines 140-145): long month,
numeric day. -/
def shortFormatSettings (tz : String) : DateTimeFormatOptions :=
  DateTimeFormatOptions.mk tz (some "numeric") (some "long") (some "numeric")
    none none none none

/-- `optionsDate` of the `long` branch (lines 155-160). -/
def longOptionsDate (tz : String) : DateTimeFormatOptions :=
  DateTimeFormatOptions.mk tz (some "numeric") (some "2-digit") (some "2-digit")
    none none none none

/-- `optionsTime` of the `long` branch (lines 161-167): 2-digit hour,
minute and second with `hour12: false`. -/
def longOptionsTime (tz : String) : DateTimeFormatOptions :=
  DateTimeFormatOptions.mk tz none none none
    (some "2-digit") (some "2-digit") (some "2-digit") (some false)

/-- Abstract browser runtime: the resolved IANA timezone and the behaviour
of `new Date(s).toLocaleDateString / toLocaleTimeString / toLocaleString`
(taking the raw string, the locale and the options), of `parseFloat`
(`none` models `NaN`), and of `Number.prototype.toLocaleString`. -/
structure JsRuntime where
  timeZone : String
  toLocaleDateString : String → String → DateTimeFormatOptions → String
  toLocaleTimeString : String → String → DateTimeFormatOptions → String
  toLocaleString : String → String → DateTimeFormatOptions → String
  parseFloat : String → Option ℚ
  numToLocaleString : ℚ → String

/-- Rewrite of a `utc-to-local-long` element's text (lines 154-170). -/
def localizeLong (rt : JsRuntime) (s : String) : String :=
  rt.toLocaleDateString s.trim "en-CA" (longOptionsDate rt.timeZone) ++ " " ++
    rt.toLocaleTimeString s.trim "en-CA" (longOptionsTime rt.timeZone)

/-- Rewrite of a `utc-to-local-medium` element's text (lines 171-177). -/
def localizeMedium (rt : JsRuntime) (s : String) : String :=
  rt.toLocaleString s.trim "en-CA" (mediumFormatSettings rt.timeZone)

/-- Rewrite of a `utc-to-local-short` element's text (lines 171-177). -/
def localizeShort (rt : JsRuntime) (s : String) : String :=
  rt.toLocaleString s.trim "en-CA" (shortFormatSettings rt.timeZone)

/-! One formatting pass over the document for a single class: every
element carrying the class has its `textContent` read, transformed by `f`
and written back (dropping its subtree); other elements recurse into their
children. -/
mutual
def rewriteTaggedText (cls : String) (f : String → String) : Elem → Elem
  | .mk t c x a w oh sh ks =>
    if c.contains cls then .mk t c (f (x ++ textContentL ks)) a w oh sh ElemList.nil
    else .mk t c x a w oh sh (rewriteTaggedTextL cls f ks)

def rewriteTaggedTextL (cls : String) (f : String → String) : ElemList → ElemList
  | .nil => .nil
  | .cons e es => .cons (rewriteTaggedText cls f e) (rewriteTaggedTextL cls f es)
end

/-- Embedding of `convertUTCToLocal`: the three class passes in the
`Object.keys(formatSettings)` insertion order (long, then medium, then
short). -/
def convertUTCToLocal (rt : JsRuntime) (doc : Elem) : Elem :=
  rewriteTaggedText "utc-to-local-short" (localizeShort rt)
    (rewriteTaggedText "utc-to-local-medium" (localizeMedium rt)
      (rewriteTaggedText "utc-to-local-long" (localizeLong rt) doc))

/-! Embedding of `formatCounts`: every `.count` element's `innerHTML` is
parsed with `parseFloat`; when the result is not `NaN` the `innerHTML` is
rewritten with `Number.prototype.toLocaleString`, otherwise the element is
left untouched (and its still-attached descendants are processed). -/
mutual
def formatCounts (rt : JsRuntime) : Elem → Elem
  | .mk t c x a w oh sh ks =>
    if c.contains "count" then
      match rt.parseFloat (x ++ serializeL ks) with
      | some n => .mk t c (rt.numToLocaleString n) a w oh sh ElemList.nil
      | none => .mk t c x a w oh sh (formatCountsL rt ks)
    else .mk t c x a w oh sh (formatCountsL rt ks)

def formatCountsL (rt : JsRuntime) : ElemList → ElemList
  | .nil => .nil
  | .cons e es => .cons (formatCounts rt e) (formatCountsL rt es)
end

/-- C4: a leaf element tagged with exactly one of the three time classes
has its trimmed text re-rendered with the class-specific option set: `long`
as numeric date plus space plus 24-hour time (`hour12: false`), `medium`
with `toLocaleString` under the numeric 2-digit date set, `short` under the
long-month/numeric-day set — all in the viewer's resolved timezone. -/
theorem convertUTCToLocal_formats (rt : JsRuntime) (e : Elem)
    (hleaf : e.kids = ElemList.nil) :
    (hasClass e "utc-to-local-long" = true → hasClass e "utc-to-local-medium" = false →
      hasClass e "utc-to-local-short" = false →
      (convertUTCToLocal rt e).text
        = rt.toLocaleDateString (textContentOf e).trim "en-CA" (longOptionsDate rt.timeZone)
            ++ " "
            ++ rt.toLocaleTimeString (textContentOf e).trim "en-CA" (longOptionsTime rt.timeZone))
    ∧ (hasClass e "utc-to-local-medium" = true → hasClass e "utc-to-local-long" = false →
        hasClass e "utc-to-local-short" = false →
        (convertUTCToLocal rt e).text
          = rt.toLocaleString (textContentOf e).trim "en-CA" (mediumFormatSettings rt.timeZone))
    ∧ (hasClass e "utc-to-local-short" = true → hasClass e "utc-to-local-long" = false →
        hasClass e "utc-to-local-medium" = false →
        (convertUTCToLocal rt e).text
          = rt.toLocaleString (textContentOf e).trim "en-CA" (shortFormatSettings rt.timeZone)) := by
  cases e with
  | mk t c x a w oh sh ks =>
    have hks : ks = ElemList.nil := hleaf
    subst hks
    refine ⟨?_, ?_, ?_⟩
    · intro h1 h2 h3
      simp [hasClass, Elem.classes] at h1 h2 h3
      simp [convertUTCToLocal, rewriteTaggedText, rewriteTaggedTextL, h1, h2, h3,
        Elem.text, localizeLong, textContentOf]
    · intro h1 h2 h3
      simp [hasClass, Elem.classes] at h1 h2 h3
      simp [convertUTCToLocal, rewriteTaggedText, rewriteTaggedTextL, h1, h2, h3,
        Elem.text, localizeMedium, textContentOf]
    · intro h1 h2 h3
      simp [hasClass, Elem.classes] at h1 h2 h3
      simp [convertUTCToLocal, rewriteTaggedText, rewriteTaggedTextL, h1, h2, h3,
        Elem.text, localizeShort, textContentOf]

/-- C5: the localizer performs no validation — for an element tagged with
any of the three time classes, whenever the browser's renderings of the
trimmed text are the string `Invalid Date` (as the Date formatting methods
yield on an unparseable input), the element's text is rewritten to the
resulting `Invalid Date` rendering rather than being left as-is or raising
an error: the `long` class (which joins the date and time renderings with a
space) yields `Invalid Date Invalid Date`, the `medium` and `short` classes
yield `Invalid Date`. -/
theorem convertUTCToLocal_invalid_date (rt : JsRuntime) (e : Elem)
    (hleaf : e.kids = ElemList.nil) :
    (hasClass e "utc-to-local-long" = true → hasClass e "utc-to-local-medium" = false →
      hasClass e "utc-to-local-short" = false →
      rt.toLocaleDateString (textContentOf e).trim "en-CA"
          (longOptionsDate rt.timeZone) = "Invalid Date" →
      rt.toLocaleTimeString (textContentOf e).trim "en-CA"
          (longOptionsTime rt.timeZone) = "Invalid Date" →
      (convertUTCToLocal rt e).text = "Invalid Date Invalid Date")
    ∧ (hasClass e "utc-to-local-medium" = true → hasClass e "utc-to-local-long" = false →
        hasClass e "utc-to-local-short" = false →
        rt.toLocaleString (textContentOf e).trim "en-CA"
            (mediumFormatSettings rt.timeZone) = "Invalid Date" →
        (convertUTCToLocal rt e).text = "Invalid Date")
    ∧ (hasClass e "utc-to-local-short" = true → hasClass e "utc-to-local-long" = false →
        hasClass e "utc-to-local-medium" = false →
        rt.toLocaleString (textContentOf e).trim "en-CA"
            (shortFormatSettings rt.timeZone) = "Invalid Date" →
        (convertUTCToLocal rt e).text = "Invalid Date") := by
  cases e with
  | mk t c x a w oh sh ks =>
    have hks : ks = ElemList.nil := hleaf
    subst hks
    refine ⟨?_, ?_, ?_⟩
    · intro h1 h2 h3 hd ht
      simp [hasClass, Elem.classes] at h1 h2 h3
      simp only [textContentOf] at hd ht
      simp [convertUTCToLocal, rewriteTaggedText, rewriteTaggedTextL, h1, h2, h3,
        Elem.text, localizeLong, hd, ht]
    · intro h1 h2 h3 hbad
      simp [hasClass, Elem.classes] at h1 h2 h3
      simp only [textContentOf] at hbad
      simp [convertUTCToLocal, rewriteTaggedText, rewriteTaggedTextL, h1, h2, h3,
        Elem.text, localizeMedium, hbad]
    · intro h1 h2 h3 hbad
      simp [hasClass, Elem.classes] at h1 h2 h3
      simp only [textContentOf] at hbad
      simp [convertUTCToLocal, rewriteTaggedText, rewriteTaggedTextL, h1, h2, h3,
        Elem.text, localizeShort, hbad]

/-- C6: a leaf `.count` element is rewritten to the locale-grouped
rendering of its parsed value when `parseFloat` succeeds, and is left
exactly unchanged when its content is non-numeric (`parseFloat` gives
`NaN`). -/
theorem formatCounts_rewrite (rt : JsRuntime) (e : Elem)
    (hleaf : e.kids = ElemList.nil) (hc : hasClass e "count" = true) :
    (rt.parseFloat (innerHTMLOf e) = none → formatCounts rt e = e)
    ∧ (∀ n, rt.parseFloat (innerHTMLOf e) = some n →
        (formatCounts rt e).text = rt.numToLocaleString n) := by
  cases e with
  | mk t c x a w oh sh ks =>
    have hks : ks = ElemList.nil := hleaf
    subst hks
    simp [hasClass, Elem.classes] at hc
    constructor
    · intro hnan
      simp only [innerHTMLOf] at hnan
      simp [formatCounts, formatCountsL, hc, hnan]
    · intro n hn
      simp only [innerHTMLOf] at hn
      simp [formatCounts, hc, hn, Elem.text]

/-- Mock browser runtime used by the witnesses. -/
def rtMock : JsRuntime :=
  JsRuntime.mk "UTC"
    (fun s _ _ => "D:" ++ s)
    (fun s _ _ => "T:" ++ s)
    (fun s _ o => if o.month == some "long" then "S:" ++ s else "Invalid Date")
    (fun s => if s == "12345" then some 12345 else none)
    (fun n => if n == (12345 : ℚ) then "12,345" else "0")

/-- Concrete long-tagged leaf element. -/
def eLong : Elem :=
  Elem.mk "span" ["utc-to-local-long"] "2024-01-02 03:04:05" [] 0 0 none ElemList.nil

/-- Concrete medium-tagged leaf element. -/
def eMedium : Elem :=
  Elem.mk "span" ["utc-to-local-medium"] "2024-01-02" [] 0 0 none ElemList.nil

/-- Concrete short-tagged leaf element. -/
def eShort : Elem :=
  Elem.mk "span" ["utc-to-local-short"] "2024-01-02" [] 0 0 none ElemList.nil

/-- C4 witness: the three format cases applied to concrete elements under
the mock runtime. -/
theorem convertUTCToLocal_formats_witness :
    ((convertUTCToLocal rtMock eLong).text
        = rtMock.toLocaleDateString (textContentOf eLong).trim "en-CA"
            (longOptionsDate rtMock.timeZone)
          ++ " "
          ++ rtMock.toLocaleTimeString (textContentOf eLong).trim "en-CA"
              (longOptionsTime rtMock.timeZone))
    ∧ ((convertUTCToLocal rtMock eMedium).text
        = rtMock.toLocaleString (textContentOf eMedium).trim "en-CA"
            (mediumFormatSettings rtMock.timeZone))
    ∧ ((convertUTCToLocal rtMock eShort).text
        = rtMock.toLocaleString (textContentOf eShort).trim "en-CA"
            (shortFormatSettings rtMock.timeZone)) :=
  ⟨(convertUTCToLocal_formats rtMock eLong rfl).1 rfl rfl rfl,
    (convertUTCToLocal_formats rtMock eMedium rfl).2.1 rfl rfl rfl,
    (convertUTCToLocal_formats rtMock eShort rfl).2.2 rfl rfl rfl⟩

/-- Mock browser runtime on an unparseable date: every Date formatting
method renders `Invalid Date` (as they do in JavaScript). -/
def rtInvalid : JsRuntime :=
  JsRuntime.mk "UTC"
    (fun _ _ _ => "Invalid Date")
    (fun _ _ _ => "Invalid Date")
    (fun _ _ _ => "Invalid Date")
    (fun _ => none)
    (fun _ => "0")

/-- Concrete long-tagged element with unparseable text. -/
def eBadLong : Elem :=
  Elem.mk "time" ["utc-to-local-long"] "not a date" [] 0 0 none ElemList.nil

/-- Concrete medium-tagged element with unparseable text. -/
def eBadDate : Elem :=
  Elem.mk "time" ["utc-to-local-medium"] "2024-13-99" [] 0 0 none ElemList.nil

/-- Concrete short-tagged element with unparseable text. -/
def eBadShort : Elem :=
  Elem.mk "time" ["utc-to-local-short"] "garbage" [] 0 0 none ElemList.nil

/-- C5 witness: the three unparseable concrete inputs are rewritten to the
respective `Invalid Date` renderings under the invalid-date mock runtime. -/
theorem convertUTCToLocal_invalid_date_witness :
    ((convertUTCToLocal rtInvalid eBadLong).text = "Invalid Date Invalid Date")
      ∧ ((convertUTCToLocal rtInvalid eBadDate).text = "Invalid Date")
      ∧ ((convertUTCToLocal rtInvalid eBadShort).text = "Invalid Date") :=
  ⟨(convertUTCToLocal_invalid_date rtInvalid eBadLong rfl).1 rfl rfl rfl rfl rfl,
    (convertUTCToLocal_invalid_date rtInvalid eBadDate rfl).2.1 rfl rfl rfl rfl,
    (convertUTCToLocal_invalid_date rtInvalid eBadShort rfl).2.2 rfl rfl rfl rfl⟩

/-- Concrete numeric count element. -/
def eCountNum : Elem := Elem.mk "span" ["count"] "12345" [] 0 0 none ElemList.nil

/-- Concrete non-numeric count element. -/
def eCountStr : Elem := Elem.mk "span" ["count"] "abc" [] 0 0 none ElemList.nil

/-- C6 witness: the numeric concrete element is rewritten to the grouped
rendering, the non-numeric one is exactly unchanged. -/
theorem formatCounts_rewrite_witness :
    formatCounts rtMock eCountStr = eCountStr
      ∧ (formatCounts rtMock eCountNum).text = "12,345" :=
  ⟨(formatCounts_rewrite rtMock eCountStr rfl rfl).1 rfl,
    (formatCounts_rewrite rtMock eCountNum rfl rfl).2 12345 rfl⟩

end Whoosh
